import Mathlib

/-
Shallow embedding of
src/src/follow_joint_trajectory_action_adapter/follow_joint_trajectory_action_adapter.py
(class FollowJointTrajectoryActionAdapter).

Modelling conventions:
* Python floats are modelled as rationals.
* np.deg2rad(d) = d * pi / 180 where pi is the numpy float constant; the
  development is parametric in a rational stand-in `pi` because no claim
  depends on its value, only (at most) on its positivity.
* The scipy PchipInterpolator is the external monotone-interpolation
  capability; it is modelled as an abstract `Builder` argument together with
  its documented raising precondition (at least two samples, strictly
  increasing sample times).
* Goal handles are identified by natural numbers.  Calls into the goal
  handle (set_rejected / set_accepted / set_canceled / set_aborted /
  set_succeeded / publish_feedback) are recorded in an event log, so that
  claims about handle lifecycles are statements about the log.
* A Python exception escaping a callback is modelled by a Boolean flag
  (the adapter state it leaves behind is exactly the state at the raise
  point, since no adapter field is mutated before the raising statements).
-/

namespace Egm

/-- np.deg2rad: converts degrees to radians, d * pi / 180. -/
def deg2rad (pi d : ℚ) : ℚ := d * pi / 180

/-- A 6-vector of joint angles (radians). -/
abbrev Angles := Fin 6 → ℚ

/-- One waypoint of a FollowJointTrajectory goal. -/
structure TrajPoint where
  time_from_start : ℚ
  positions : Angles

/-- The trajectory part of a FollowJointTrajectory goal message. -/
structure GoalMsg where
  joint_names : List String
  points : List TrajPoint

/-- The fixed joint-name list checked in goal_cb (source line 62). -/
def expectedJointNames : List String :=
  ["joint_1", "joint_2", "joint_3", "joint_4", "joint_5", "joint_6"]

/-- The desired / actual component of a FollowJointTrajectoryFeedback. -/
structure PointCmd where
  positions : Angles
  time_from_start : ℚ

/-- A FollowJointTrajectoryFeedback message (header stamp, a wall-clock
time, is outside the model). -/
structure Feedback where
  desired : PointCmd
  actual : PointCmd

/-- A call made on a goal handle. -/
inductive Transition where
  | rejected (reason : Option String)
  | accepted
  | canceled
  | aborted
  | succeeded
  | feedback (fb : Feedback)

/-- Event log: goal-handle id paired with the call made on it. -/
abbrev Log := List (ℕ × Transition)

/-- The per-joint interpolation capability: from sample times and sample
values to a continuous function of time (scipy PchipInterpolator). -/
abbrev Builder := List ℚ → List ℚ → ℚ → ℚ

/-- Strict monotonicity of a list of sample times. -/
def strictIncr : List ℚ → Bool
  | a :: b :: ts => decide (a < b) && strictIncr (b :: ts)
  | _ => true

/-- Precondition under which PchipInterpolator(t, x) does not raise:
at least two samples and strictly increasing sample times. -/
def pchipOK (ts : List ℚ) : Bool := decide (2 ≤ ts.length) && strictIncr ts

/-- The mutable fields of FollowJointTrajectoryActionAdapter (the unused
field _t and the lock are not modelled; all operations here are the
bodies executed under the single lock). -/
structure AdapterState where
  current_joint_angles : Angles
  trajectory_valid : Bool
  trajectory_interp : Option (Fin 6 → ℚ → ℚ)
  trajectory_t : ℚ
  trajectory_max_t : ℚ
  trajectory_gh : Option ℕ

/-- State after __init__ (source lines 40-55). -/
def initState : AdapterState :=
  { current_joint_angles := fun _ => 0
    trajectory_valid := false
    trajectory_interp := none
    trajectory_t := 0
    trajectory_max_t := 0
    trajectory_gh := none }

/-- Model of _reset_trajectory (source lines 174-179). -/
def reset_trajectory (s : AdapterState) : AdapterState :=
  { s with trajectory_valid := false
           trajectory_max_t := 0
           trajectory_t := 0
           trajectory_interp := none
           trajectory_gh := none }

/-- Model of _get_trajectory_joint_angles (source lines 156-157).  The source
unconditionally evaluates the interpolator list; it is only called from
branches guarded by _trajectory_valid, where the interpolators are
present, so the `none` branch is unreachable there. -/
def get_trajectory_joint_angles (s : AdapterState) (t : ℚ) : Angles :=
  fun j =>
    match s.trajectory_interp with
    | some interp => interp j t
    | none => 0

/-- Model of _trajectory_complete (source lines 181-188): set_succeeded on the
stored handle, then reset. -/
def trajectory_complete (s : AdapterState) : AdapterState × Log :=
  (reset_trajectory s,
    match s.trajectory_gh with
    | some h => [(h, Transition.succeeded)]
    | none => [])

/-- Model of _abort_trajectory (source lines 191-197): set_aborted on the stored
handle when present, then reset. -/
def abort_trajectory_impl (s : AdapterState) : AdapterState × Log :=
  (reset_trajectory s,
    match s.trajectory_gh with
    | some h => [(h, Transition.aborted)]
    | none => [])

/-- abort_trajectory, the public entry point (source lines 199-202). -/
def abort_trajectory (s : AdapterState) : AdapterState × Log :=
  if s.trajectory_valid then abort_trajectory_impl s else (s, [])

/-- cancel_cb (source lines 88-92): unconditionally reset, then
set_canceled on the given handle. -/
def cancel_cb (s : AdapterState) (h : ℕ) : AdapterState × Log :=
  (reset_trajectory s, [(h, Transition.canceled)])

/-- Model of _set_current_joint_angles (source lines 94-111): record the observed
angles; when a trajectory is active, abort on tracking error above
deg2rad 45, otherwise publish one feedback message whose desired (and
aliased actual) positions are the interpolated angles at max time and
whose time_from_start is the current trajectory time.  The source stores
the observed angles first; storing them changes no field read by
_get_trajectory_joint_angles, so the interpolation reads below use s. -/
def set_current_joint_angles (pi : ℚ) (s : AdapterState) (ja : Angles) :
    AdapterState × Log :=
  if s.trajectory_valid then
    if ∃ j : Fin 6,
        deg2rad pi 45 <
          |get_trajectory_joint_angles s s.trajectory_t j - ja j| then
      abort_trajectory_impl { s with current_joint_angles := ja }
    else
      match s.trajectory_gh with
      | some h =>
          ({ s with current_joint_angles := ja },
           [(h, Transition.feedback
              { desired := { positions :=
                               get_trajectory_joint_angles s s.trajectory_max_t
                             time_from_start := s.trajectory_t }
                actual := { positions :=
                              get_trajectory_joint_angles s s.trajectory_max_t
                            time_from_start := s.trajectory_t } })])
      | none => ({ s with current_joint_angles := ja }, [])
  else ({ s with current_joint_angles := ja }, [])

/-- Model of _set_trajectory_time (source lines 139-154).  Returns the new state,
the emitted handle calls, and the Python return value: `none` for
(False, None), `some angles` for (True, angles).  The source assigns
trajectory_t := t before the completion branch; the assignment changes
neither the interpolators nor the current joint angles, so the reads
below use s. -/
def set_trajectory_time_impl (pi : ℚ) (s : AdapterState) (t : ℚ) :
    AdapterState × Log × Option Angles :=
  if s.trajectory_valid = false then (s, [], none)
  else if t > s.trajectory_max_t ∨ t < 0 then (s, [], none)
  else if s.trajectory_max_t ≤ t then
    if ∀ j : Fin 6,
        |s.current_joint_angles j - get_trajectory_joint_angles s t j| <
          deg2rad pi (1/10) then
      ((trajectory_complete { s with trajectory_t := t }).1,
       (trajectory_complete { s with trajectory_t := t }).2,
       some (get_trajectory_joint_angles s t))
    else
      ({ s with trajectory_t := t }, [], some (get_trajectory_joint_angles s t))
  else
    ({ s with trajectory_t := t }, [], some (get_trajectory_joint_angles s t))

/-- set_trajectory_time, the public entry point (source lines 159-161).
The source reads `return self._set_trajectory_time(self, t)`: the bound
method receives `self` for its single time parameter plus the extra `t`,
so every call raises TypeError (too many arguments) before touching any
state.  Modelled as an unconditional exception. -/
def set_trajectory_time (s : AdapterState) (t : ℚ) :
    Except String (AdapterState × Log × Option Angles) :=
  Except.error "TypeError: _set_trajectory_time() takes exactly 2 arguments (3 given)"

/-- increment_trajectory_time (source lines 163-172): clamp the target
time into [0, max] with two sequential comparisons, then delegate to
_set_trajectory_time. -/
def increment_trajectory_time (pi : ℚ) (s : AdapterState) (dt : ℚ) :
    AdapterState × Log × Option Angles :=
  if s.trajectory_valid = false then (s, [], none)
  else
    set_trajectory_time_impl pi s
      (if (if s.trajectory_t + dt < 0 then 0 else s.trajectory_t + dt) >
            s.trajectory_max_t
        then s.trajectory_max_t
        else if s.trajectory_t + dt < 0 then 0 else s.trajectory_t + dt)

/-- Sample times of a goal, in message order (source line 75). -/
def goalTimes (g : GoalMsg) : List ℚ := g.points.map (fun p => p.time_from_start)

/-- goal_cb (source lines 58-86).  Returns the new state, the emitted
handle calls, and a flag recording whether an exception escaped the
callback (IndexError on an empty waypoint list, or ValueError from
PchipInterpolator; in both raising branches no adapter field has been
mutated yet). -/
def goal_cb (build : Builder) (pi : ℚ) (s : AdapterState) (h : ℕ)
    (g : GoalMsg) : AdapterState × Log × Bool :=
  if g.joint_names ≠ expectedJointNames then
    (s, [(h, Transition.rejected (some "Invalid joint names"))], false)
  else
    match g.points with
    | [] => (s, [], true)
    | p0 :: _ =>
      if ∃ j : Fin 6, deg2rad pi 5 < |p0.positions j - s.current_joint_angles j| then
        (s, [(h, Transition.rejected none)], false)
      else
        if pchipOK (goalTimes g) then
          ({ (abort_trajectory_impl s).1 with
               trajectory_gh := some h
               trajectory_max_t := (goalTimes g).getLastD 0
               trajectory_interp := some (fun j =>
                 build (goalTimes g) (g.points.map (fun p => p.positions j)))
               trajectory_valid := true },
           (h, Transition.accepted) :: (abort_trajectory_impl s).2,
           false)
        else
          (s, [(h, Transition.accepted)], true)

/-- One externally triggered adapter operation. -/
inductive Op where
  | goal (h : ℕ) (g : GoalMsg)
  | cancel (h : ℕ)
  | observe (ja : Angles)
  | setTime (t : ℚ)
  | incTime (dt : ℚ)
  | abort

/-- Apply one operation to the adapter state, collecting the handle calls
it makes.  `setTime` is the public set_trajectory_time, which raises
before mutating anything, so it neither changes state nor touches the
handle. -/
def applyOp (build : Builder) (pi : ℚ) (op : Op) (s : AdapterState) :
    AdapterState × Log :=
  match op with
  | Op.goal h g =>
      ((goal_cb build pi s h g).1, (goal_cb build pi s h g).2.1)
  | Op.cancel h => cancel_cb s h
  | Op.observe ja => set_current_joint_angles pi s ja
  | Op.setTime _ => (s, [])
  | Op.incTime dt =>
      ((increment_trajectory_time pi s dt).1,
       (increment_trajectory_time pi s dt).2.1)
  | Op.abort => abort_trajectory s

/-- Run a sequence of operations from a state, accumulating the log. -/
def run (build : Builder) (pi : ℚ) : List Op → AdapterState × Log → AdapterState × Log
  | [], p => p
  | op :: ops, p =>
      run build pi ops
        ((applyOp build pi op p.1).1, p.2 ++ (applyOp build pi op p.1).2)

/-! Concrete fixtures used by witnesses and counterexamples. -/

/-- A concrete interpolator builder (the claims never depend on the
numeric behaviour of the external capability). -/
def build0 : Builder := fun _ _ _ => 0

/-- A concrete constant per-joint interpolator. -/
def constInterp : Fin 6 → ℚ → ℚ := fun _ _ => 0

/-- A concrete consistent active-trajectory state. -/
def sActive : AdapterState :=
  { current_joint_angles := fun _ => 0
    trajectory_valid := true
    trajectory_interp := some constInterp
    trajectory_t := 0
    trajectory_max_t := 2
    trajectory_gh := some 0 }

/-- A goal with a wrong joint-name list. -/
def gBadNames : GoalMsg :=
  { joint_names := ["joint_1"]
    points := [⟨0, fun _ => 0⟩, ⟨2, fun _ => 0⟩] }

/-- A goal whose first waypoint is 1 rad away from zero current angles. -/
def gFar : GoalMsg :=
  { joint_names := expectedJointNames
    points := [⟨0, fun _ => 1⟩, ⟨2, fun _ => 1⟩] }

/-- A well-formed goal starting at the zero pose. -/
def gGood : GoalMsg :=
  { joint_names := expectedJointNames
    points := [⟨0, fun _ => 0⟩, ⟨2, fun _ => 0⟩] }

/-- A goal that passes every check in goal_cb although all of its waypoint
times are negative (goal_cb never validates the times). -/
def gNeg : GoalMsg :=
  { joint_names := expectedJointNames
    points := [⟨-2, fun _ => 0⟩, ⟨-1, fun _ => 0⟩] }

/-- The state goal_cb installs from gNeg: an active trajectory whose
trajectory_max_t is -1. -/
def sNeg : AdapterState := (goal_cb build0 3 initState 1 gNeg).1

/-! Claims. -/

/-- C5: the public set-absolute-time operation should return a failure
indicator or success without ever throwing, but the source passes `self`
as the time argument of the private method, so every call raises
TypeError before reaching the validation logic.  The theorem evaluates
the public operation at a failing input (the initial state, t = 1). -/
theorem C5_set_trajectory_time_always_raises :
    set_trajectory_time initState 1 =
      Except.error
        "TypeError: _set_trajectory_time() takes exactly 2 arguments (3 given)" :=
  rfl

/-- C8: every cancel request unconditionally resets the trajectory state
and transitions the given handle to canceled; when the trajectory state
is already at its reset baseline the state is left unchanged. -/
theorem C8_cancel_resets_and_cancels (s : AdapterState) (h : ℕ) :
    cancel_cb s h = (reset_trajectory s, [(h, Transition.canceled)]) ∧
    (s.trajectory_valid = false → s.trajectory_max_t = 0 → s.trajectory_t = 0 →
      s.trajectory_interp = none → s.trajectory_gh = none →
      (cancel_cb s h).1 = s) := by
  refine ⟨rfl, ?_⟩
  intro h1 h2 h3 h4 h5
  cases s
  simp_all [cancel_cb, reset_trajectory]

/-- Witness for C8 at the initial state, which is at the reset baseline. -/
theorem C8_witness :
    cancel_cb initState 7 = (reset_trajectory initState, [(7, Transition.canceled)]) ∧
    (cancel_cb initState 7).1 = initState :=
  ⟨(C8_cancel_resets_and_cancels initState 7).1,
   (C8_cancel_resets_and_cancels initState 7).2 rfl rfl rfl rfl rfl⟩

/-- C3 counterexample: on a goal with invalid joint names the emitted
rejection reason is the text "Invalid joint names", not the claimed text
"invalid joint names". -/
theorem C3_counterexample :
    (goal_cb build0 3 initState 5 gBadNames).2.1 =
      [(5, Transition.rejected (some "Invalid joint names"))] ∧
    some "Invalid joint names" ≠ some "invalid joint names" :=
  ⟨rfl, by decide⟩

/-- C3 (amended): validation is in order with hard rejections and no side
effect on adapter state; the joint-name rejection carries the reason
"Invalid joint names" (capital I), and the start-pose rejection carries
no reason text. -/
theorem C3_goal_validation (build : Builder) (pi : ℚ) (s : AdapterState)
    (h : ℕ) (g : GoalMsg) :
    (g.joint_names ≠ expectedJointNames →
      goal_cb build pi s h g =
        (s, [(h, Transition.rejected (some "Invalid joint names"))], false)) ∧
    (∀ p0 ps, g.joint_names = expectedJointNames → g.points = p0 :: ps →
      (∃ j : Fin 6, deg2rad pi 5 < |p0.positions j - s.current_joint_angles j|) →
      goal_cb build pi s h g = (s, [(h, Transition.rejected none)], false)) := by
  constructor
  · intro hn
    unfold goal_cb
    rw [if_pos hn]
  · intro p0 ps hn hp hfar
    unfold goal_cb
    rw [if_neg (by simp [hn]), hp]
    dsimp only
    rw [if_pos hfar]

/-- Witness for C3 (amended): both rejection branches at concrete inputs. -/
theorem C3_witness :
    goal_cb build0 3 initState 5 gBadNames =
      (initState, [(5, Transition.rejected (some "Invalid joint names"))], false) ∧
    goal_cb build0 3 initState 6 gFar =
      (initState, [(6, Transition.rejected none)], false) :=
  ⟨(C3_goal_validation build0 3 initState 5 gBadNames).1 (by decide),
   (C3_goal_validation build0 3 initState 6 gFar).2
     ⟨0, fun _ => 1⟩ [⟨2, fun _ => 1⟩] rfl rfl ⟨0, by norm_num [deg2rad, initState]⟩⟩

/-- Helper: the two sequential comparisons in increment_trajectory_time
compute the clamp min (max (t + dt) 0) max_t, so on a valid trajectory
the increment delegates to the internal set-time on the clamped value. -/
theorem increment_eq_set_clamped (pi : ℚ) (s : AdapterState) (dt : ℚ)
    (hv : s.trajectory_valid = true) :
    increment_trajectory_time pi s dt =
      set_trajectory_time_impl pi s
        (min (max (s.trajectory_t + dt) 0) s.trajectory_max_t) := by
  unfold increment_trajectory_time
  rw [hv, if_neg (by simp)]
  congr 1
  rcases lt_or_le (s.trajectory_t + dt) 0 with hneg | hpos
  · rw [if_pos hneg]
    rw [max_eq_right hneg.le]
    rcases lt_or_le s.trajectory_max_t 0 with hm | hm
    · rw [if_pos hm, min_eq_right hm.le]
    · rw [if_neg (not_lt.mpr hm), min_eq_left hm]
  · rw [if_neg (not_lt.mpr hpos)]
    rw [max_eq_left hpos]
    rcases lt_or_le s.trajectory_max_t (s.trajectory_t + dt) with hm | hm
    · rw [if_pos hm, min_eq_right hm.le]
    · rw [if_neg (not_lt.mpr hm), min_eq_left hm]

/-- C6: on a state with an active trajectory, incrementing the trajectory
time by dt is the same operation (same state, same handle calls, same
return value) as setting the absolute time to
clamp(current_time + dt, 0, max_time). -/
theorem C6_increment_is_clamped_set (pi : ℚ) (s : AdapterState) (dt : ℚ)
    (hv : s.trajectory_valid = true) :
    increment_trajectory_time pi s dt =
      set_trajectory_time_impl pi s
        (min (max (s.trajectory_t + dt) 0) s.trajectory_max_t) :=
  increment_eq_set_clamped pi s dt hv

/-- Witness for C6 at a concrete active state and delta. -/
theorem C6_witness :
    increment_trajectory_time 3 sActive 1 =
      set_trajectory_time_impl 3 sActive
        (min (max (sActive.trajectory_t + 1) 0) sActive.trajectory_max_t) :=
  C6_increment_is_clamped_set 3 sActive 1 rfl

/-- Helper: explicit value of the state installed by goal_cb from gNeg:
an active trajectory with trajectory_max_t = -1 and trajectory_t = 0. -/
theorem sNeg_eq :
    sNeg = { current_joint_angles := fun _ => 0
             trajectory_valid := true
             trajectory_interp := some constInterp
             trajectory_t := 0
             trajectory_max_t := -1
             trajectory_gh := some 1 } := by
  unfold sNeg goal_cb
  rw [if_neg (by decide)]
  dsimp only [gNeg]
  rw [if_neg ?hfar, if_pos (by decide)]
  case hfar =>
    push_neg
    intro j
    norm_num [deg2rad, initState]
  rfl

/-- C10 counterexample: the failure branch of increment_trajectory_time is
reachable with an active trajectory.  The state sNeg is produced by a
successful goal_cb call (all waypoint times negative, which goal_cb never
checks), so trajectory_max_t = -1; the clamped time is then -1 < 0 and
the internal set-time call returns (False, None). -/
theorem C10_counterexample :
    sNeg.trajectory_valid = true ∧
    (increment_trajectory_time 3 sNeg 5).2.2 = none ∧
    (increment_trajectory_time 3 sNeg 5).1 = sNeg := by
  have key : increment_trajectory_time 3 sNeg 5 = (sNeg, [], none) := by
    rw [increment_eq_set_clamped 3 sNeg 5 (by rw [sNeg_eq])]
    have hmin : min (max (sNeg.trajectory_t + 5) 0) sNeg.trajectory_max_t = -1 := by
      rw [sNeg_eq]; norm_num
    rw [hmin]
    unfold set_trajectory_time_impl
    rw [if_neg (by rw [sNeg_eq]; simp), if_pos (Or.inr (by norm_num))]
  exact ⟨by rw [sNeg_eq], by rw [key], by rw [key]⟩

/-- C10 (amended): with an active trajectory whose trajectory_max_t is
nonnegative (which holds for every trajectory admitted from a goal whose
final waypoint time is nonnegative), increment_trajectory_time always
returns success with evaluated angles; the failure result (False, None)
is returned whenever no trajectory is active. -/
theorem C10_increment_total (pi : ℚ) (s : AdapterState) (dt : ℚ) :
    (s.trajectory_valid = true → 0 ≤ s.trajectory_max_t →
      ∃ a, (increment_trajectory_time pi s dt).2.2 = some a) ∧
    (s.trajectory_valid = false →
      increment_trajectory_time pi s dt = (s, [], none)) := by
  constructor
  · intro hv hm
    rw [increment_eq_set_clamped pi s dt hv]
    set t2 := min (max (s.trajectory_t + dt) 0) s.trajectory_max_t with ht2
    have h0 : 0 ≤ t2 := le_min (le_max_right _ 0) hm
    have hle : t2 ≤ s.trajectory_max_t := min_le_right _ _
    unfold set_trajectory_time_impl
    rw [hv, if_neg (by simp)]
    rw [if_neg (by push_neg; exact ⟨hle, h0⟩)]
    split
    · split
      · exact ⟨_, rfl⟩
      · exact ⟨_, rfl⟩
    · exact ⟨_, rfl⟩
  · intro hv
    unfold increment_trajectory_time
    rw [hv]
    rfl

/-- Witness for C10 (amended): both branches at concrete inputs. -/
theorem C10_witness :
    (∃ a, (increment_trajectory_time 3 sActive 1).2.2 = some a) ∧
    increment_trajectory_time 3 initState 1 = (initState, [], none) :=
  ⟨(C10_increment_total 3 sActive 1).1 rfl (by norm_num [sActive]),
   (C10_increment_total 3 initState 1).2 rfl⟩

/-- C1: on every joint-angle observation with an active trajectory, the
observed angles are recorded; if any joint deviates from the angles
interpolated at the current trajectory time by more than deg2rad 45, the
handle is aborted and the state reset on that observation with no
feedback; otherwise exactly one feedback is published whose desired
positions are the interpolated angles at max time, whose actual field
equals its desired field, and whose time_from_start is the current
trajectory time. -/
theorem C1_observation (pi : ℚ) (s : AdapterState) (ja : Angles) (h : ℕ)
    (hv : s.trajectory_valid = true) (hgh : s.trajectory_gh = some h) :
    (set_current_joint_angles pi s ja).1.current_joint_angles = ja ∧
    ((∃ j : Fin 6,
        deg2rad pi 45 < |get_trajectory_joint_angles s s.trajectory_t j - ja j|) →
      set_current_joint_angles pi s ja =
        (reset_trajectory { s with current_joint_angles := ja },
         [(h, Transition.aborted)])) ∧
    ((∀ j : Fin 6,
        |get_trajectory_joint_angles s s.trajectory_t j - ja j| ≤ deg2rad pi 45) →
      set_current_joint_angles pi s ja =
        ({ s with current_joint_angles := ja },
         [(h, Transition.feedback
            { desired := { positions := get_trajectory_joint_angles s s.trajectory_max_t
                           time_from_start := s.trajectory_t }
              actual := { positions := get_trajectory_joint_angles s s.trajectory_max_t
                          time_from_start := s.trajectory_t } })])) := by
  have habort : (∃ j : Fin 6,
      deg2rad pi 45 < |get_trajectory_joint_angles s s.trajectory_t j - ja j|) →
      set_current_joint_angles pi s ja =
        (reset_trajectory { s with current_joint_angles := ja },
         [(h, Transition.aborted)]) := by
    intro hex
    unfold set_current_joint_angles
    rw [if_pos hv, if_pos hex]
    unfold abort_trajectory_impl
    dsimp only
    rw [hgh]
  have hfb : (∀ j : Fin 6,
      |get_trajectory_joint_angles s s.trajectory_t j - ja j| ≤ deg2rad pi 45) →
      set_current_joint_angles pi s ja =
        ({ s with current_joint_angles := ja },
         [(h, Transition.feedback
            { desired := { positions := get_trajectory_joint_angles s s.trajectory_max_t
                           time_from_start := s.trajectory_t }
              actual := { positions := get_trajectory_joint_angles s s.trajectory_max_t
                          time_from_start := s.trajectory_t } })]) := by
    intro hall
    unfold set_current_joint_angles
    rw [if_pos hv, if_neg (by push_neg; exact fun j => hall j), hgh]
  refine ⟨?_, habort, hfb⟩
  by_cases hex : ∃ j : Fin 6,
      deg2rad pi 45 < |get_trajectory_joint_angles s s.trajectory_t j - ja j|
  · rw [habort hex]
    rfl
  · push_neg at hex
    rw [hfb hex]

/-- Witness for C1 at a concrete active state and zero observation (the
feedback branch fires, including the recording conjunct). -/
theorem C1_witness :
    (set_current_joint_angles 3 sActive (fun _ => 0)).1.current_joint_angles =
      (fun _ => 0) ∧
    set_current_joint_angles 3 sActive (fun _ => 0) =
      ({ sActive with current_joint_angles := fun _ => 0 },
       [(0, Transition.feedback
          { desired := { positions := get_trajectory_joint_angles sActive sActive.trajectory_max_t
                         time_from_start := sActive.trajectory_t }
            actual := { positions := get_trajectory_joint_angles sActive sActive.trajectory_max_t
                        time_from_start := sActive.trajectory_t } })]) :=
  ⟨(C1_observation 3 sActive (fun _ => 0) 0 rfl rfl).1,
   (C1_observation 3 sActive (fun _ => 0) 0 rfl rfl).2.2 (by
      intro j
      norm_num [sActive, constInterp, get_trajectory_joint_angles, deg2rad])⟩

/-- C2: goal_cb on an accepted goal while another trajectory is active
transitions the old handle to aborted and releases its state, then
installs the new trajectory as active with current_time 0; the new handle
is the only active one. -/
theorem C2_accept_aborts_previous (build : Builder) (pi : ℚ) (s : AdapterState)
    (h0 h1 : ℕ) (g : GoalMsg) (p0 : TrajPoint) (ps : List TrajPoint)
    (hgh : s.trajectory_gh = some h0)
    (hn : g.joint_names = expectedJointNames)
    (hp : g.points = p0 :: ps)
    (hnear : ∀ j : Fin 6, |p0.positions j - s.current_joint_angles j| ≤ deg2rad pi 5)
    (hok : pchipOK (goalTimes g) = true) :
    goal_cb build pi s h1 g =
      ({ reset_trajectory s with
           trajectory_gh := some h1
           trajectory_max_t := (goalTimes g).getLastD 0
           trajectory_interp := some (fun j =>
             build (goalTimes g) (g.points.map (fun p => p.positions j)))
           trajectory_valid := true },
       [(h1, Transition.accepted), (h0, Transition.aborted)],
       false) ∧
    (goal_cb build pi s h1 g).1.trajectory_t = 0 ∧
    (goal_cb build pi s h1 g).1.trajectory_gh = some h1 := by
  have key : goal_cb build pi s h1 g =
      ({ reset_trajectory s with
           trajectory_gh := some h1
           trajectory_max_t := (goalTimes g).getLastD 0
           trajectory_interp := some (fun j =>
             build (goalTimes g) (g.points.map (fun p => p.positions j)))
           trajectory_valid := true },
       [(h1, Transition.accepted), (h0, Transition.aborted)],
       false) := by
    unfold goal_cb
    rw [if_neg (by simp [hn]), hp]
    dsimp only
    rw [if_neg (by push_neg; exact fun j => hnear j), if_pos hok]
    unfold abort_trajectory_impl
    dsimp only
    rw [hgh, ← hp]
  refine ⟨key, by rw [key]; try rfl, by rw [key]; try rfl⟩

/-- Witness for C2: a fresh goal accepted while sActive is running. -/
theorem C2_witness :
    goal_cb build0 3 sActive 1 gGood =
      ({ reset_trajectory sActive with
           trajectory_gh := some 1
           trajectory_max_t := (goalTimes gGood).getLastD 0
           trajectory_interp := some (fun j =>
             build0 (goalTimes gGood) (gGood.points.map (fun p => p.positions j)))
           trajectory_valid := true },
       [(1, Transition.accepted), (0, Transition.aborted)],
       false) ∧
    (goal_cb build0 3 sActive 1 gGood).1.trajectory_t = 0 ∧
    (goal_cb build0 3 sActive 1 gGood).1.trajectory_gh = some 1 :=
  C2_accept_aborts_previous build0 3 sActive 0 1 gGood ⟨0, fun _ => 0⟩
    [⟨2, fun _ => 0⟩] rfl rfl rfl
    (by intro j; norm_num [sActive, deg2rad]) (by decide)

/-- C4: when a time advance lands on t with max_time <= t on an active
trajectory, the goal succeeds exactly once and the state resets when
every joint is strictly within deg2rad 0.1 of the evaluated angles;
otherwise the trajectory stays active at time t with no handle call. -/
theorem C4_completion (pi : ℚ) (s : AdapterState) (t : ℚ) (h : ℕ)
    (hv : s.trajectory_valid = true) (hgh : s.trajectory_gh = some h)
    (h0 : 0 ≤ t) (hle : t ≤ s.trajectory_max_t) (hge : s.trajectory_max_t ≤ t) :
    ((∀ j : Fin 6,
        |s.current_joint_angles j - get_trajectory_joint_angles s t j| <
          deg2rad pi (1/10)) →
      set_trajectory_time_impl pi s t =
        (reset_trajectory { s with trajectory_t := t },
         [(h, Transition.succeeded)],
         some (get_trajectory_joint_angles s t)) ∧
      (set_trajectory_time_impl pi s t).1.trajectory_valid = false) ∧
    ((∃ j : Fin 6,
        deg2rad pi (1/10) ≤
          |s.current_joint_angles j - get_trajectory_joint_angles s t j|) →
      (set_trajectory_time_impl pi s t).1.trajectory_valid = true ∧
      (set_trajectory_time_impl pi s t).1.trajectory_t = t ∧
      (set_trajectory_time_impl pi s t).2.1 = []) := by
  have hguard : ¬(t > s.trajectory_max_t ∨ t < 0) := by
    push_neg
    exact ⟨hle, h0⟩
  constructor
  · intro hall
    have key : set_trajectory_time_impl pi s t =
        (reset_trajectory { s with trajectory_t := t },
         [(h, Transition.succeeded)],
         some (get_trajectory_joint_angles s t)) := by
      unfold set_trajectory_time_impl
      rw [hv, if_neg (by simp), if_neg hguard, if_pos hge, if_pos hall]
      unfold trajectory_complete
      dsimp only
      rw [hgh]
    exact ⟨key, by rw [key]; rfl⟩
  · intro hex
    have key : set_trajectory_time_impl pi s t =
        ({ s with trajectory_t := t }, [],
         some (get_trajectory_joint_angles s t)) := by
      unfold set_trajectory_time_impl
      rw [hv, if_neg (by simp), if_neg hguard, if_pos hge,
        if_neg (by push_neg; exact hex)]
    refine ⟨?_, ?_, ?_⟩ <;> rw [key]
    exact hv

/-- Witness for C4 at sActive with t = max_time = 2 (success branch). -/
theorem C4_witness :
    set_trajectory_time_impl 3 sActive 2 =
      (reset_trajectory { sActive with trajectory_t := 2 },
       [(0, Transition.succeeded)],
       some (get_trajectory_joint_angles sActive 2)) ∧
    (set_trajectory_time_impl 3 sActive 2).1.trajectory_valid = false :=
  (C4_completion 3 sActive 2 0 rfl rfl (by norm_num)
      (by norm_num [sActive]) (by norm_num [sActive])).1
    (by intro j
        norm_num [sActive, constInterp, get_trajectory_joint_angles, deg2rad])

/-- The consistency invariant of claim C7 for the active trajectory:
interpolators and goal handle present, positive duration, current time
inside [0, max]. -/
def TrajInvariant (s : AdapterState) : Prop :=
  s.trajectory_valid = true →
    s.trajectory_interp.isSome = true ∧ s.trajectory_gh.isSome = true ∧
    0 < s.trajectory_max_t ∧ 0 ≤ s.trajectory_t ∧
    s.trajectory_t ≤ s.trajectory_max_t

/-- Side condition of the amended C7: goal submissions carry a positive
final waypoint time (the source never checks this). -/
def GoalTimesPositive : Op → Prop
  | Op.goal _ g => 0 < (goalTimes g).getLastD 0
  | _ => True

/-- Helper: the reset state trivially satisfies the invariant. -/
theorem TrajInvariant_reset (s : AdapterState) :
    TrajInvariant (reset_trajectory s) := by
  intro h
  simp [reset_trajectory] at h

/-- Helper: a Boolean that is not false is true. -/
theorem bool_not_false {b : Bool} (h : ¬ b = false) : b = true := by
  cases b
  · exact absurd rfl h
  · rfl

/-- Helper: the internal set-time operation preserves the invariant. -/
theorem TrajInvariant_set_time (pi : ℚ) (s : AdapterState) (t : ℚ)
    (hinv : TrajInvariant s) :
    TrajInvariant (set_trajectory_time_impl pi s t).1 := by
  unfold set_trajectory_time_impl
  split
  · exact hinv
  next hvf =>
    have hv : s.trajectory_valid = true := bool_not_false hvf
    split
    · exact hinv
    next hguard =>
      push_neg at hguard
      split
      · split
        · exact TrajInvariant_reset _
        · intro _
          obtain ⟨hi, hg, hm, _, _⟩ := hinv hv
          exact ⟨hi, hg, hm, hguard.2, hguard.1⟩
      · intro _
        obtain ⟨hi, hg, hm, _, _⟩ := hinv hv
        exact ⟨hi, hg, hm, hguard.2, hguard.1⟩

/-- Helper: goal admission preserves the invariant when the submitted
goal carries a positive final waypoint time. -/
theorem TrajInvariant_goal (build : Builder) (pi : ℚ) (s : AdapterState)
    (h : ℕ) (g : GoalMsg) (hinv : TrajInvariant s)
    (hpos : 0 < (goalTimes g).getLastD 0) :
    TrajInvariant (goal_cb build pi s h g).1 := by
  unfold goal_cb
  split
  · exact hinv
  · split
    · exact hinv
    · split
      · exact hinv
      · split
        · intro _
          exact ⟨rfl, rfl, hpos, le_refl 0, hpos.le⟩
        · exact hinv

/-- Helper: the observation callback preserves the invariant. -/
theorem TrajInvariant_observe (pi : ℚ) (s : AdapterState) (ja : Angles)
    (hinv : TrajInvariant s) :
    TrajInvariant (set_current_joint_angles pi s ja).1 := by
  unfold set_current_joint_angles
  split
  · split
    · exact TrajInvariant_reset _
    · split
      · exact fun hv => hinv hv
      · exact fun hv => hinv hv
  · exact fun hv => hinv hv

/-- C7 (amended): every public operation preserves the consistency
invariant of the active trajectory, provided every submitted goal has a
positive final waypoint time (without that proviso the invariant fails,
see the counterexample). -/
theorem C7_invariant_preserved (build : Builder) (pi : ℚ) (op : Op)
    (s : AdapterState) (hinv : TrajInvariant s)
    (hop : GoalTimesPositive op) :
    TrajInvariant (applyOp build pi op s).1 := by
  cases op with
  | goal h g => exact TrajInvariant_goal build pi s h g hinv hop
  | cancel h => exact TrajInvariant_reset s
  | observe ja => exact TrajInvariant_observe pi s ja hinv
  | setTime t => exact hinv
  | incTime dt =>
      show TrajInvariant (increment_trajectory_time pi s dt).1
      unfold increment_trajectory_time
      split
      · exact hinv
      · exact TrajInvariant_set_time pi s _ hinv
  | abort =>
      show TrajInvariant (abort_trajectory s).1
      unfold abort_trajectory
      split
      · exact TrajInvariant_reset s
      · exact hinv

/-- C7 counterexample: goal admission does not preserve the claimed
invariant as stated.  From the initial state (which satisfies the
invariant) the goal gNeg is accepted and installs an active trajectory
with trajectory_max_t = -1, violating both 0 < max_time and
current_time <= max_time. -/
theorem C7_counterexample :
    TrajInvariant initState ∧
    ¬ TrajInvariant (applyOp build0 3 (Op.goal 1 gNeg) initState).1 := by
  constructor
  · intro h
    exact absurd h (by decide)
  · intro hI
    have h1 : (applyOp build0 3 (Op.goal 1 gNeg) initState).1 = sNeg := rfl
    rw [h1, sNeg_eq] at hI
    have hm := (hI rfl).2.2.1
    norm_num at hm

/-- Witness for C7 (amended) at a concrete consistent state and the
abort operation. -/
theorem C7_witness : TrajInvariant (applyOp build0 3 Op.abort sActive).1 :=
  C7_invariant_preserved build0 3 Op.abort sActive
    (fun _ => ⟨rfl, rfl, by norm_num [sActive], le_refl 0, by norm_num [sActive]⟩)
    trivial

/-- Terminal goal-handle transitions: set_rejected, set_canceled,
set_aborted, set_succeeded (set_accepted and publish_feedback are not
terminal). -/
def isTerminal : Transition → Bool
  | Transition.rejected _ => true
  | Transition.canceled => true
  | Transition.aborted => true
  | Transition.succeeded => true
  | _ => false

/-- Number of terminal transitions a log records for a handle. -/
def termCount (log : Log) (h : ℕ) : ℕ :=
  (log.filter (fun e => e.1 == h && isTerminal e.2)).length

/-- Whether a log records any call at all on a handle. -/
def mentions (log : Log) (h : ℕ) : Bool := log.any (fun e => e.1 == h)

theorem termCount_append (l l' : Log) (h : ℕ) :
    termCount (l ++ l') h = termCount l h + termCount l' h := by
  simp [termCount, List.filter_append]

theorem mentions_append (l l' : Log) (h : ℕ) :
    mentions (l ++ l') h = (mentions l h || mentions l' h) := by
  simp [mentions, List.any_append]

theorem termCount_single_ne (a h : ℕ) (tr : Transition) (hne : a ≠ h) :
    termCount [(a, tr)] h = 0 := by
  simp [termCount, hne]

theorem termCount_single_nonterm (a h : ℕ) (tr : Transition)
    (ht : isTerminal tr = false) : termCount [(a, tr)] h = 0 := by
  simp [termCount, ht]

theorem termCount_single_term (h : ℕ) (tr : Transition)
    (ht : isTerminal tr = true) : termCount [(h, tr)] h = 1 := by
  simp [termCount, ht]

theorem mentions_single (a h : ℕ) (tr : Transition) :
    mentions [(a, tr)] h = (a == h) := by
  simp [mentions]

theorem mentions_false_termCount (l : Log) (h : ℕ)
    (hm : mentions l h = false) : termCount l h = 0 := by
  induction l with
  | nil => rfl
  | cons e l ih =>
      simp only [mentions, List.any_cons, Bool.or_eq_false_iff] at hm
      have he : (e.1 == h) = false := hm.1
      have hl : termCount l h = 0 := ih hm.2
      simp [termCount, List.filter_cons, he] at hl ⊢
      exact hl

/-- Well-formedness of one operation relative to the current state and
log: a goal submission uses a handle never seen before and does not
raise past acceptance; a cancel request targets the currently active
goal handle.  The remaining operations are unrestricted. -/
def WFStep (build : Builder) (pi : ℚ) (s : AdapterState) (log : Log) :
    Op → Prop
  | Op.goal h g =>
      mentions log h = false ∧ (goal_cb build pi s h g).2.2 = false
  | Op.cancel h => s.trajectory_gh = some h
  | _ => True

/-- Well-formedness of a whole operation sequence, threading the state
and the accumulated log. -/
def WFTrace (build : Builder) (pi : ℚ) : List Op → AdapterState → Log → Prop
  | [], _, _ => True
  | op :: ops, s, log =>
      WFStep build pi s log op ∧
      WFTrace build pi ops (applyOp build pi op s).1
        (log ++ (applyOp build pi op s).2)

/-- Lifecycle invariant tying the active handle to the log: the active
handle has been called (accepted) but has no terminal transition yet, and
every other handle the log mentions has exactly one terminal
transition. -/
def HandleInv (gh : Option ℕ) (log : Log) : Prop :=
  (∀ h, gh = some h → termCount log h = 0 ∧ mentions log h = true) ∧
  (∀ h, mentions log h = true → gh ≠ some h → termCount log h = 1)

theorem HandleInv_nil_emission (gh : Option ℕ) (log : Log)
    (hJ : HandleInv gh log) : HandleInv gh (log ++ []) := by
  simpa using hJ

/-- A terminal transition on the active handle, which stops being
active. -/
theorem HandleInv_terminate_active (h0 : ℕ) (log : Log) (tr : Transition)
    (hJ : HandleInv (some h0) log) (ht : isTerminal tr = true) :
    HandleInv none (log ++ [(h0, tr)]) := by
  obtain ⟨hA, hB⟩ := hJ
  constructor
  · intro h hh
    exact Option.noConfusion hh
  · intro h hm _
    rw [termCount_append]
    rcases eq_or_ne h0 h with rfl | hne
    · rw [(hA h0 rfl).1, termCount_single_term h0 tr ht]
    · rw [mentions_append, mentions_single] at hm
      have hbe : (h0 == h) = false := by simp [hne]
      rw [hbe, Bool.or_false] at hm
      rw [hB h hm (by simp [hne]), termCount_single_ne h0 h tr hne]

/-- A non-terminal call (feedback) on the active handle. -/
theorem HandleInv_feedback_active (h0 : ℕ) (log : Log) (tr : Transition)
    (hJ : HandleInv (some h0) log) (ht : isTerminal tr = false) :
    HandleInv (some h0) (log ++ [(h0, tr)]) := by
  obtain ⟨hA, hB⟩ := hJ
  constructor
  · intro h hh
    injection hh with hh
    subst hh
    constructor
    · rw [termCount_append, (hA h0 rfl).1, termCount_single_nonterm _ _ _ ht]
    · rw [mentions_append, (hA h0 rfl).2, Bool.true_or]
  · intro h hm hne
    have hne' : h0 ≠ h := fun e => hne (by rw [e])
    rw [mentions_append, mentions_single] at hm
    have hbe : (h0 == h) = false := by simp [hne']
    rw [hbe, Bool.or_false] at hm
    rw [termCount_append, hB h hm hne, termCount_single_ne _ _ _ hne']

/-- A terminal transition (rejection) on a fresh handle leaves the active
handle untouched. -/
theorem HandleInv_reject_fresh (gh : Option ℕ) (log : Log) (h : ℕ)
    (tr : Transition) (hJ : HandleInv gh log) (hf : mentions log h = false)
    (ht : isTerminal tr = true) :
    HandleInv gh (log ++ [(h, tr)]) := by
  obtain ⟨hA, hB⟩ := hJ
  have hgh : gh ≠ some h := by
    intro he
    rw [(hA h he).2] at hf
    cases hf
  constructor
  · intro h' hh'
    have hne : h' ≠ h := by
      intro e
      exact hgh (e ▸ hh')
    constructor
    · rw [termCount_append, (hA h' hh').1, termCount_single_ne _ _ _ hne.symm]
    · rw [mentions_append, (hA h' hh').2, Bool.true_or]
  · intro h' hm hne
    rcases eq_or_ne h' h with rfl | hne'
    · rw [termCount_append, mentions_false_termCount log h' hf,
        termCount_single_term _ _ ht]
    · rw [mentions_append, mentions_single] at hm
      have hbe : (h == h') = false := by simp [hne'.symm]
      rw [hbe, Bool.or_false] at hm
      rw [termCount_append, hB h' hm hne, termCount_single_ne _ _ _ hne'.symm]

theorem termCount_pair (l : Log) (a b : ℕ) (ta tb : Transition) (h : ℕ) :
    termCount (l ++ [(a, ta), (b, tb)]) h =
      termCount l h + termCount [(a, ta)] h + termCount [(b, tb)] h := by
  rw [show [(a, ta), (b, tb)] = [(a, ta)] ++ [(b, tb)] from rfl,
    ← List.append_assoc, termCount_append, termCount_append]

theorem mentions_pair (l : Log) (a b : ℕ) (ta tb : Transition) (h : ℕ) :
    mentions (l ++ [(a, ta), (b, tb)]) h =
      (mentions l h || (a == h) || (b == h)) := by
  rw [show [(a, ta), (b, tb)] = [(a, ta)] ++ [(b, tb)] from rfl,
    ← List.append_assoc, mentions_append, mentions_append,
    mentions_single, mentions_single]

/-- Accepting a fresh handle while h0 is active: h0 is aborted, the fresh
handle becomes active. -/
theorem HandleInv_accept_install (h0 h : ℕ) (log : Log)
    (hJ : HandleInv (some h0) log) (hf : mentions log h = false) :
    HandleInv (some h)
      (log ++ [(h, Transition.accepted), (h0, Transition.aborted)]) := by
  obtain ⟨hA, hB⟩ := hJ
  have hm0 : mentions log h0 = true := (hA h0 rfl).2
  have hne0 : h0 ≠ h := by
    intro e
    rw [e, hf] at hm0
    cases hm0
  constructor
  · intro h' hh'
    injection hh' with hh'
    subst hh'
    constructor
    · rw [termCount_pair, mentions_false_termCount log h hf,
        termCount_single_nonterm h h Transition.accepted rfl,
        termCount_single_ne h0 h Transition.aborted hne0]
    · rw [mentions_pair]
      simp
  · intro h' hm hne
    have hneh : h ≠ h' := fun e => hne (by rw [e])
    rcases eq_or_ne h' h0 with he | hne0'
    · rw [he]
      rw [termCount_pair, (hA h0 rfl).1,
        termCount_single_ne h h0 Transition.accepted (he ▸ hneh),
        termCount_single_term h0 Transition.aborted rfl]
    · rw [mentions_pair] at hm
      have hb1 : (h == h') = false := by simp [hneh]
      have hb2 : (h0 == h') = false := by simp [hne0'.symm]
      rw [hb1, hb2, Bool.or_false, Bool.or_false] at hm
      rw [termCount_pair, hB h' hm (fun hc => hne0' (Option.some.inj hc).symm),
        termCount_single_ne h h' Transition.accepted hneh,
        termCount_single_ne h0 h' Transition.aborted hne0'.symm]

/-- Accepting a fresh handle with no previously active trajectory. -/
theorem HandleInv_accept_install_none (h : ℕ) (log : Log)
    (hJ : HandleInv none log) (hf : mentions log h = false) :
    HandleInv (some h) (log ++ [(h, Transition.accepted)]) := by
  obtain ⟨hA, hB⟩ := hJ
  constructor
  · intro h' hh'
    injection hh' with hh'
    subst hh'
    constructor
    · rw [termCount_append, mentions_false_termCount log h hf,
        termCount_single_nonterm h h Transition.accepted rfl]
    · rw [mentions_append, mentions_single]
      simp
  · intro h' hm hne
    have hneh : h ≠ h' := fun e => hne (by rw [e])
    rw [mentions_append, mentions_single] at hm
    have hb1 : (h == h') = false := by simp [hneh]
    rw [hb1, Bool.or_false] at hm
    rw [termCount_append, hB h' hm (fun hc => Option.noConfusion hc),
      termCount_single_ne h h' Transition.accepted hneh]

/-- The internal set-time operation preserves the lifecycle invariant. -/
theorem HandleInv_set_time (pi : ℚ) (s : AdapterState) (t : ℚ) (log : Log)
    (hJ : HandleInv s.trajectory_gh log) :
    HandleInv (set_trajectory_time_impl pi s t).1.trajectory_gh
      (log ++ (set_trajectory_time_impl pi s t).2.1) := by
  unfold set_trajectory_time_impl
  split
  · exact HandleInv_nil_emission _ _ hJ
  · split
    · exact HandleInv_nil_emission _ _ hJ
    · split
      · split
        · unfold trajectory_complete
          dsimp only
          cases hgh : s.trajectory_gh with
          | none =>
              rw [hgh] at hJ
              exact HandleInv_nil_emission _ _ hJ
          | some h0 =>
              rw [hgh] at hJ
              exact HandleInv_terminate_active h0 log Transition.succeeded hJ rfl
        · exact HandleInv_nil_emission _ _ hJ
      · exact HandleInv_nil_emission _ _ hJ

/-- One well-formed operation preserves the lifecycle invariant. -/
theorem HandleInv_step (build : Builder) (pi : ℚ) (op : Op)
    (s : AdapterState) (log : Log)
    (hJ : HandleInv s.trajectory_gh log)
    (hwf : WFStep build pi s log op) :
    HandleInv (applyOp build pi op s).1.trajectory_gh
      (log ++ (applyOp build pi op s).2) := by
  cases op with
  | cancel h =>
      show HandleInv (cancel_cb s h).1.trajectory_gh
        (log ++ (cancel_cb s h).2)
      rw [hwf] at hJ
      exact HandleInv_terminate_active h log Transition.canceled hJ rfl
  | setTime t =>
      show HandleInv s.trajectory_gh (log ++ [])
      exact HandleInv_nil_emission _ _ hJ
  | abort =>
      show HandleInv (abort_trajectory s).1.trajectory_gh
        (log ++ (abort_trajectory s).2)
      unfold abort_trajectory
      split
      · unfold abort_trajectory_impl
        cases hgh : s.trajectory_gh with
        | none =>
            rw [hgh] at hJ
            exact HandleInv_nil_emission _ _ hJ
        | some h0 =>
            rw [hgh] at hJ
            exact HandleInv_terminate_active h0 log Transition.aborted hJ rfl
      · exact HandleInv_nil_emission _ _ hJ
  | incTime dt =>
      show HandleInv (increment_trajectory_time pi s dt).1.trajectory_gh
        (log ++ (increment_trajectory_time pi s dt).2.1)
      unfold increment_trajectory_time
      split
      · exact HandleInv_nil_emission _ _ hJ
      · exact HandleInv_set_time pi s _ log hJ
  | observe ja =>
      show HandleInv (set_current_joint_angles pi s ja).1.trajectory_gh
        (log ++ (set_current_joint_angles pi s ja).2)
      unfold set_current_joint_angles
      split
      · split
        · unfold abort_trajectory_impl
          dsimp only
          cases hgh : s.trajectory_gh with
          | none =>
              rw [hgh] at hJ
              exact HandleInv_nil_emission _ _ hJ
          | some h0 =>
              rw [hgh] at hJ
              exact HandleInv_terminate_active h0 log Transition.aborted hJ rfl
        · split
          next h heq =>
            have hgoal : HandleInv s.trajectory_gh
                (log ++ [(h, Transition.feedback
                  { desired := { positions :=
                                   get_trajectory_joint_angles s s.trajectory_max_t
                                 time_from_start := s.trajectory_t }
                    actual := { positions :=
                                  get_trajectory_joint_angles s s.trajectory_max_t
                                time_from_start := s.trajectory_t } })]) := by
              rw [heq] at hJ ⊢
              exact HandleInv_feedback_active h log (Transition.feedback _) hJ rfl
            exact hgoal
          next heq =>
            exact HandleInv_nil_emission _ _ hJ
      · exact HandleInv_nil_emission _ _ hJ
  | goal h g =>
      obtain ⟨hf, hraise⟩ := hwf
      show HandleInv (goal_cb build pi s h g).1.trajectory_gh
        (log ++ (goal_cb build pi s h g).2.1)
      unfold goal_cb
      unfold goal_cb at hraise
      by_cases hn : g.joint_names ≠ expectedJointNames
      · rw [if_pos hn]
        exact HandleInv_reject_fresh _ log h _ hJ hf rfl
      · rw [if_neg hn]
        rw [if_neg hn] at hraise
        cases hp : g.points with
        | nil =>
            rw [hp] at hraise
            dsimp only at hraise
            cases hraise
        | cons p0 ps =>
            rw [hp] at hraise
            dsimp only
            dsimp only at hraise
            by_cases hfar : ∃ j : Fin 6,
              deg2rad pi 5 < |p0.positions j - s.current_joint_angles j|
            · rw [if_pos hfar]
              exact HandleInv_reject_fresh _ log h _ hJ hf rfl
            · rw [if_neg hfar]
              rw [if_neg hfar] at hraise
              by_cases hok : pchipOK (goalTimes g) = true
              · rw [if_pos hok]
                unfold abort_trajectory_impl
                dsimp only
                cases hgh : s.trajectory_gh with
                | none =>
                    rw [hgh] at hJ
                    exact HandleInv_accept_install_none h log hJ hf
                | some h0 =>
                    rw [hgh] at hJ
                    exact HandleInv_accept_install h0 h log hJ hf
              · rw [if_neg hok] at hraise
                dsimp only at hraise
                cases hraise

/-- The lifecycle invariant holds after every well-formed trace. -/
theorem HandleInv_run (build : Builder) (pi : ℚ) :
    ∀ (ops : List Op) (s : AdapterState) (log : Log),
      HandleInv s.trajectory_gh log → WFTrace build pi ops s log →
      HandleInv (run build pi ops (s, log)).1.trajectory_gh
        (run build pi ops (s, log)).2 := by
  intro ops
  induction ops with
  | nil =>
      intro s log hJ _
      exact hJ
  | cons op ops ih =>
      intro s log hJ hwf
      exact ih _ _ (HandleInv_step build pi op s log hJ hwf.1) hwf.2

/-- Helper: explicit value of goal_cb accepting gGood from the initial
state (no previous trajectory, so only the accepted call is made). -/
theorem goal_cb_gGood :
    goal_cb build0 3 initState 1 gGood =
      ({ current_joint_angles := fun _ => 0
         trajectory_valid := true
         trajectory_interp := some constInterp
         trajectory_t := 0
         trajectory_max_t := 2
         trajectory_gh := some 1 },
       [(1, Transition.accepted)], false) := by
  unfold goal_cb
  rw [if_neg (by decide)]
  dsimp only [gGood]
  rw [if_neg ?hfar, if_pos (by decide)]
  case hfar =>
    push_neg
    intro j
    norm_num [deg2rad, initState]
  rfl

/-- C9 (amended): along any operation sequence in which every goal
submission uses a fresh handle and does not raise past acceptance, and
every cancel request targets the currently active goal handle, each
handle receives at most one terminal transition, and each handle the log
mentions that is not active at the end has received exactly one.  Without
the cancel proviso the claim fails, see the counterexample. -/
theorem C9_one_terminal_per_handle (build : Builder) (pi : ℚ)
    (ops : List Op) (hwf : WFTrace build pi ops initState []) :
    ∀ h, termCount (run build pi ops (initState, [])).2 h ≤ 1 ∧
      (mentions (run build pi ops (initState, [])).2 h = true →
        (run build pi ops (initState, [])).1.trajectory_gh ≠ some h →
        termCount (run build pi ops (initState, [])).2 h = 1) := by
  have hJ0 : HandleInv initState.trajectory_gh [] := by
    constructor
    · intro h hh
      exact Option.noConfusion hh
    · intro h hm
      exact Bool.noConfusion hm
  have hJ := HandleInv_run build pi ops initState [] hJ0 hwf
  intro h
  refine ⟨?_, hJ.2 h⟩
  by_cases hgh : (run build pi ops (initState, [])).1.trajectory_gh = some h
  · rw [(hJ.1 h hgh).1]
    exact Nat.zero_le 1
  · by_cases hm : mentions (run build pi ops (initState, [])).2 h = true
    · rw [hJ.2 h hm hgh]
    · have hmf : mentions (run build pi ops (initState, [])).2 h = false := by
        cases hv : mentions (run build pi ops (initState, [])).2 h
        · rfl
        · exact absurd hv hm
      rw [mentions_false_termCount _ _ hmf]
      exact Nat.zero_le 1

/-- C9 counterexample: the adapter invokes set_canceled unconditionally,
so two cancel requests naming the same handle produce two terminal
transitions on it, contradicting the claim as stated. -/
theorem C9_counterexample :
    termCount (run build0 3 [Op.cancel 1, Op.cancel 1] (initState, [])).2 1 = 2 ∧
    ¬ termCount (run build0 3 [Op.cancel 1, Op.cancel 1] (initState, [])).2 1 ≤ 1 := by
  refine ⟨rfl, ?_⟩
  intro hle
  rw [show termCount (run build0 3 [Op.cancel 1, Op.cancel 1]
      (initState, [])).2 1 = 2 from rfl] at hle
  omega

/-- Witness for C9 (amended): a goal accepted and then canceled by a
well-formed trace; its handle records exactly one terminal transition. -/
theorem C9_witness :
    termCount (run build0 3 [Op.goal 1 gGood, Op.cancel 1] (initState, [])).2 1 ≤ 1 ∧
    (mentions (run build0 3 [Op.goal 1 gGood, Op.cancel 1] (initState, [])).2 1 = true →
      (run build0 3 [Op.goal 1 gGood, Op.cancel 1] (initState, [])).1.trajectory_gh ≠ some 1 →
      termCount (run build0 3 [Op.goal 1 gGood, Op.cancel 1] (initState, [])).2 1 = 1) :=
  C9_one_terminal_per_handle build0 3 [Op.goal 1 gGood, Op.cancel 1]
    ⟨⟨rfl, by rw [goal_cb_gGood]⟩,
     ⟨by
        show (applyOp build0 3 (Op.goal 1 gGood) initState).1.trajectory_gh = some 1
        rw [show (applyOp build0 3 (Op.goal 1 gGood) initState).1 =
          (goal_cb build0 3 initState 1 gGood).1 from rfl, goal_cb_gGood],
      trivial⟩⟩ 1

end Egm
